import Mathlib

/-!
# Verification of the lavapacket browser portal modules

Shallow embedding, in Lean 4, of the storage / voice / quick-capture /
supabase-client modules of the `pathfindr-app/lavapacket` repository, together
with theorems settling the frozen specification claims.

Modelling conventions used throughout:

* Backend (Supabase) calls are modelled by their outcome, an
  `Except String α`: `.error e` is a call whose response carries an error (the
  JS code `throw`s it into the surrounding `try/catch`), `.ok d` is a
  successful response with data `d`.  A `.single()` query that can yield a
  null row is `Except String (Option row)`.
* `localStorage.setItem` can throw (quota); it is modelled by an
  `Except String Unit` outcome.
* JSONB payloads, timestamps and generated UUIDs are carried as opaque
  `String`/`Nat` inputs; their contents never influence the control flow
  being verified.
* Confidence values of the intent parser (`0.9`, `0.95`, `0.85`, `0.7` in the
  source) are represented in hundredths (`90`, `95`, `85`, `70`) to stay in
  `Nat`.
-/

set_option autoImplicit false

/-! ## JavaScript string helpers

`String.prototype.includes` and `String.prototype.toLowerCase`, as used by the
voice-command parser.  `jsToLower` reuses Lean's `String.toLower`
(character-wise `Char.toLower`), which agrees with JS on the ASCII commands
involved here. -/

/-- `isPrefixOfChars needle hay`: the character list `needle` is a prefix of `hay`. -/
def isPrefixOfChars : List Char → List Char → Bool
  | [], _ => true
  | _ :: _, [] => false
  | a :: as, b :: bs => a == b && isPrefixOfChars as bs

/-- `hasSubChars needle hay`: `needle` occurs as a contiguous substring of `hay`. -/
def hasSubChars (needle : List Char) : List Char → Bool
  | [] => needle.isEmpty
  | c :: t => isPrefixOfChars needle (c :: t) || hasSubChars needle t

/-- JS `hay.includes(sub)`. -/
def jsIncludes (hay sub : String) : Bool :=
  hasSubChars sub.toList hay.toList

/-- JS `s.toLowerCase()` on the ASCII strings involved: character-wise
`Char.toLower` over the string's characters. -/
def jsToLower (s : String) : String :=
  ⟨s.data.map Char.toLower⟩

/-! ## Storage module (`src/js/modules/storage.js`)

`Storage.save` collects the packet data and either pushes it to Supabase
(`saveToSupabase`, falling back to `saveToLocalStorage` when the remote save
throws or returns null) or saves directly to localStorage. -/

/-- The object produced by `Storage.collectData()`.  The JSONB-ish fields
(`fields`, `config`, photos, estimate, eagleview) are opaque payload. -/
structure PacketData where
  id : Option String
  customer_name : String
  customer_address : String
  product_type : String
  payload : String
deriving DecidableEq

/-- The record `saveToLocalStorage` writes under the packet's storage key:
the collected data spread together with the current packet id and a
timestamp. -/
structure LocalSaveRecord where
  data : PacketData
  id : String
  timestamp : Nat
deriving DecidableEq

/-- All inputs `Storage.save` branches on: the `useSupabase` flag, the current
packet id, the collected data, the outcome of `SupabaseClient.savePacket`
(`.ok (some rowId)` a saved row, `.ok none` a null result, `.error` a throw)
and the outcome of `localStorage.setItem`. -/
structure StorageEnv where
  useSupabase : Bool
  currentPacketId : String
  data : PacketData
  remote : Except String (Option String)
  localSetItem : Except String Unit
  now : Nat

/-- `Storage.saveToLocalStorage(data)`: writes `{...data, id, timestamp}` and
returns `true`, or returns `false` when `setItem` throws.  The second
component is the record written to localStorage, if any. -/
def Storage.saveToLocalStorage (env : StorageEnv) : Bool × Option LocalSaveRecord :=
  match env.localSetItem with
  | .ok _ => (true, some ⟨env.data, env.currentPacketId, env.now⟩)
  | .error _ => (false, none)

/-- `Storage.saveToSupabase(data)`: on a non-null `savePacket` result returns
`true`; when the result is null it throws `Save returned null`, and the
`catch` (also reached when `savePacket` itself throws) falls back to
`saveToLocalStorage(data)`. -/
def Storage.saveToSupabase (env : StorageEnv) : Bool × Option LocalSaveRecord :=
  match env.remote with
  | .ok (some _) => (true, none)
  | .ok none => Storage.saveToLocalStorage env
  | .error _ => Storage.saveToLocalStorage env

/-- `Storage.save()`: collect the data, then
`useSupabase ? saveToSupabase(data) : saveToLocalStorage(data)`. -/
def Storage.save (env : StorageEnv) : Bool × Option LocalSaveRecord :=
  if env.useSupabase then Storage.saveToSupabase env else Storage.saveToLocalStorage env

/-- C1: with Supabase in use, a remote save that throws or returns null falls
back to the localStorage save of the same collected data, and `save` returns
that localStorage result; without Supabase, `save` is exactly the
localStorage save. -/
theorem storage_save_try_remote_else_local (env : StorageEnv) :
    (env.useSupabase = true →
      ((∀ e, env.remote = .error e → Storage.save env = Storage.saveToLocalStorage env) ∧
       (env.remote = .ok none → Storage.save env = Storage.saveToLocalStorage env))) ∧
    (env.useSupabase = false → Storage.save env = Storage.saveToLocalStorage env) ∧
    (∀ r, (Storage.saveToLocalStorage env).2 = some r → r.data = env.data) := by
  refine ⟨fun hu => ⟨fun e he => ?_, fun hn => ?_⟩, fun hu => ?_, fun r hr => ?_⟩
  · simp [Storage.save, Storage.saveToSupabase, hu, he]
  · simp [Storage.save, Storage.saveToSupabase, hu, hn]
  · simp [Storage.save, hu]
  · unfold Storage.saveToLocalStorage at hr
    cases h : env.localSetItem with
    | ok u => rw [h] at hr; cases hr; rfl
    | error e => rw [h] at hr; cases hr

/-- Concrete instantiation of `storage_save_try_remote_else_local`. -/
theorem storage_save_try_remote_else_local_witness :
    Storage.save ⟨true, "default", ⟨none, "n", "a", "standing-seam", "{}"⟩, .error "network down", .ok (), 7⟩
      = Storage.saveToLocalStorage ⟨true, "default", ⟨none, "n", "a", "standing-seam", "{}"⟩, .error "network down", .ok (), 7⟩ :=
  (storage_save_try_remote_else_local _).1 rfl |>.1 "network down" rfl

/-! ## Voice module (`src/js/modules/voice.js`)

`Voice.save(blob, options)` uploads the audio to the `photos` storage bucket,
computes the duration, and inserts a row into `voice_memos`; when Supabase is
unavailable it calls `saveLocal`, and when the upload or the insert errors its
`catch` returns `null`.  `Voice.saveLocal` appends a record to the
`lava_voice_memos` localStorage array. -/

/-- The `options` argument of `Voice.save` / `Voice.saveLocal`
(`{ clientId, jobId, transcript = '' }`, plus the `duration` field
`saveLocal` reads). -/
structure VoiceOptions where
  clientId : Option String
  jobId : Option String
  transcript : String
  duration : Option Nat
deriving DecidableEq

/-- The record `Voice.saveLocal` pushes onto the `lava_voice_memos` array:
`{ id, client_id, job_id, transcript, duration_seconds, created_at }`. -/
structure LocalMemo where
  id : String
  client_id : Option String
  job_id : Option String
  transcript : String
  duration_seconds : Nat
  created_at : String
deriving DecidableEq

/-- The column values the remote path of `Voice.save` inserts into the
`voice_memos` table. -/
structure RemoteMemoRow where
  client_id : Option String
  job_id : Option String
  audio_url : String
  transcript : String
  duration_seconds : Nat
  recorded_by : String
deriving DecidableEq

/-- Field names of the object the remote path inserts into `voice_memos`. -/
def voiceRemoteInsertFields : List String :=
  ["client_id", "job_id", "audio_url", "transcript", "duration_seconds", "recorded_by"]

/-- Field names of the record `Voice.saveLocal` writes to localStorage. -/
def voiceLocalMemoFields : List String :=
  ["id", "client_id", "job_id", "transcript", "duration_seconds", "created_at"]

/-- The memo object built inside `Voice.saveLocal` (`crypto.randomUUID()` and
`new Date().toISOString()` are the `uuid` / `now` inputs). -/
def Voice.localMemoOf (uuid now : String) (opts : VoiceOptions) : LocalMemo :=
  { id := uuid
    client_id := opts.clientId
    job_id := opts.jobId
    transcript := opts.transcript
    duration_seconds := opts.duration.getD 0
    created_at := now }

/-- `Voice.saveLocal(blob, options)`: push the memo onto the stored array and
return it; when localStorage access throws (`localOk = false`) return `null`
and leave the store unchanged.  The audio `blob` argument is ignored by the
source function: nothing of it is persisted. -/
def Voice.saveLocal (uuid now : String) (localOk : Bool) (opts : VoiceOptions)
    (store : List LocalMemo) : Option LocalMemo × List LocalMemo :=
  if localOk then
    (some (Voice.localMemoOf uuid now opts), store ++ [Voice.localMemoOf uuid now opts])
  else (none, store)

/-- All inputs `Voice.save` branches on: Supabase availability, the outcome of
the storage upload (`some e` = `uploadError`), the public URL, the computed
audio duration, the outcome of the `voice_memos` insert, the generated UUID,
the current time, and whether localStorage access succeeds. -/
structure VoiceEnv where
  available : Bool
  uploadError : Option String
  publicUrl : String
  duration : Nat
  insert : Except String String
  uuid : String
  now : String
  localOk : Bool

/-- Result of `Voice.save`: the row saved remotely, the memo saved locally, or
`null`. -/
inductive VoiceSaveOutcome
  | remote (row : RemoteMemoRow)
  | localSaved (memo : LocalMemo)
  | failed
deriving DecidableEq

/-- The row the remote path inserts into `voice_memos`. -/
def Voice.remoteRowOf (env : VoiceEnv) (opts : VoiceOptions) : RemoteMemoRow :=
  { client_id := opts.clientId
    job_id := opts.jobId
    audio_url := env.publicUrl
    transcript := opts.transcript
    duration_seconds := env.duration
    recorded_by := "User" }

/-- `Voice.save(blob, options)`: if Supabase is unavailable, `saveLocal`;
otherwise upload then insert, with any thrown error caught and `null`
returned.  The second component is the `lava_voice_memos` store after the
call. -/
def Voice.save (env : VoiceEnv) (opts : VoiceOptions) (store : List LocalMemo) :
    VoiceSaveOutcome × List LocalMemo :=
  if env.available = false then
    match Voice.saveLocal env.uuid env.now env.localOk opts store with
    | (some memo, store2) => (.localSaved memo, store2)
    | (none, store2) => (.failed, store2)
  else
    match env.uploadError with
    | some _ => (.failed, store)
    | none =>
      match env.insert with
      | .error _ => (.failed, store)
      | .ok _ => (.remote (Voice.remoteRowOf env opts), store)

/-- C2 counterexample: the remote `voice_memos` row carries an `audio_url`
reference to the saved audio, but the record `Voice.saveLocal` writes has no
such field, so the local record does not carry the same fields as the remote
row. -/
theorem voice_local_record_lacks_audio_reference :
    "audio_url" ∈ voiceRemoteInsertFields ∧ "audio_url" ∉ voiceLocalMemoFields := by
  decide

/-- C2 as amended: the local record shares exactly the client id, job id,
transcript and duration fields with the remote row (taking the duration from
`options` with default 0 rather than measuring the blob), adds a locally
generated `id` and `created_at`, and carries no reference to the audio. -/
theorem voice_saveLocal_shared_fields (uuid now : String) (opts : VoiceOptions) :
    (Voice.localMemoOf uuid now opts).client_id = opts.clientId ∧
    (Voice.localMemoOf uuid now opts).job_id = opts.jobId ∧
    (Voice.localMemoOf uuid now opts).transcript = opts.transcript ∧
    (Voice.localMemoOf uuid now opts).duration_seconds = opts.duration.getD 0 ∧
    voiceRemoteInsertFields.filter (fun f => decide (f ∈ voiceLocalMemoFields)) =
      ["client_id", "job_id", "transcript", "duration_seconds"] :=
  ⟨rfl, rfl, rfl, rfl, by decide⟩

/-- A `Voice.save` run where Supabase is available and the storage upload
errors. -/
def voiceEnvUploadFails : VoiceEnv :=
  { available := true
    uploadError := some "upload failed"
    publicUrl := ""
    duration := 3
    insert := .ok "row-1"
    uuid := "u-1"
    now := "t0"
    localOk := true }

/-- C3 counterexample: with Supabase available and a failing storage upload,
`Voice.save` returns `null` and leaves the local `lava_voice_memos` store
unchanged — no local fallback happens, the memo is lost. -/
theorem voice_save_no_local_fallback_on_remote_failure :
    Voice.save voiceEnvUploadFails ⟨some "c1", none, "hi", none⟩ [] = (.failed, []) := by
  rfl

/-- C3 as amended: `Voice.save` saves to the browser key-value store only when
Supabase is unavailable; when Supabase is available and the upload or the
`voice_memos` insert errors, the call returns `null` with the local store
untouched. -/
theorem voice_save_local_only_when_unavailable (env : VoiceEnv) (opts : VoiceOptions)
    (store : List LocalMemo) :
    (env.available = false → env.localOk = true →
      Voice.save env opts store =
        (.localSaved (Voice.localMemoOf env.uuid env.now opts),
         store ++ [Voice.localMemoOf env.uuid env.now opts])) ∧
    (env.available = true → ∀ e, env.uploadError = some e →
      Voice.save env opts store = (.failed, store)) ∧
    (env.available = true → env.uploadError = none → ∀ e, env.insert = .error e →
      Voice.save env opts store = (.failed, store)) := by
  refine ⟨fun ha hl => ?_, fun ha e he => ?_, fun ha hu e hi => ?_⟩
  · simp [Voice.save, Voice.saveLocal, ha, hl]
  · simp [Voice.save, ha, he]
  · simp [Voice.save, ha, hu, hi]

/-- Concrete instantiation of `voice_save_local_only_when_unavailable`. -/
theorem voice_save_local_only_when_unavailable_witness :
    Voice.save ⟨false, none, "", 0, .ok "", "u", "t", true⟩ ⟨some "c", none, "", none⟩ [] =
      (.localSaved (Voice.localMemoOf "u" "t" ⟨some "c", none, "", none⟩),
       [Voice.localMemoOf "u" "t" ⟨some "c", none, "", none⟩]) :=
  (voice_save_local_only_when_unavailable _ _ _).1 rfl rfl

/-! ## Supabase client (`src/js/lib/supabase.js`)

Each packet operation first checks `isAvailable()`, then runs its queries
inside `try/catch`, returning a neutral value (`[]`, `null`, `false`) from the
`catch`.  `getPacket` runs a second query against `packet_photos` whose error
is swallowed (`if (!photosError) data.photos = photos`), and `deletePacket`
first calls `deletePacketPhotos`, which catches all of its own errors. -/

/-- A row of the `packets` table (`supabase-schema.sql`); `fields` and
`config` are opaque JSONB payloads, timestamps are omitted as opaque. -/
structure PacketRow where
  id : String
  customer_name : String
  customer_address : String
  product_type : String
  fields : String
  config : String
deriving DecidableEq

/-- The column subset `listPackets` selects. -/
structure PacketSummary where
  id : String
  customer_name : String
  customer_address : String
  product_type : String
  created_at : String
  updated_at : String
deriving DecidableEq

/-- A row of the `packet_photos` table (`supabase-schema.sql`); `position` and
`zoom` are carried as opaque strings (the latter is a SQL FLOAT). -/
structure PhotoRow where
  id : String
  packet_id : String
  slot_id : String
  storage_path : String
  position : String
  zoom : String
deriving DecidableEq

/-- What `getPacket` returns on success: the packet row, with the
`packet_photos` rows attached as its `photos` field when the secondary query
succeeded (`none` = the `photos` field was never set). -/
structure PacketWithPhotos where
  row : PacketRow
  photos : Option (List PhotoRow)
deriving DecidableEq

/-- `SupabaseClient.listPackets()`: `[]` when unavailable, `data || []` on
success, `[]` from the `catch` on error. -/
def SupabaseClient.listPackets (available : Bool)
    (q : Except String (Option (List PacketSummary))) : List PacketSummary :=
  if available = false then []
  else
    match q with
    | .error _ => []
    | .ok d => d.getD []

/-- `SupabaseClient.getPacket(id)`: `null` when unavailable or when the
`packets` single-row query errors; otherwise the row, with the
`packet_photos` rows attached only when the secondary query did not error. -/
def SupabaseClient.getPacket (available : Bool) (pq : Except String PacketRow)
    (phq : Except String (Option (List PhotoRow))) : Option PacketWithPhotos :=
  if available = false then none
  else
    match pq with
    | .error _ => none
    | .ok row =>
      match phq with
      | .error _ => some ⟨row, none⟩
      | .ok ph => some ⟨row, some (ph.getD [])⟩

/-- `SupabaseClient.savePacket(packetData)`: `null` when unavailable;
update-by-id when the data carries an id, insert otherwise; `null` from the
`catch` when the chosen query errors. -/
def SupabaseClient.savePacket (available : Bool) (id : Option String)
    (updateQ insertQ : Except String PacketRow) : Option PacketRow :=
  if available = false then none
  else
    match id with
    | some _ =>
      match updateQ with
      | .error _ => none
      | .ok r => some r
    | none =>
      match insertQ with
      | .error _ => none
      | .ok r => some r

/-- `SupabaseClient.deletePacketPhotos(packetId)`: lists and removes the
stored photo files; all errors are caught internally and nothing is
returned. -/
def SupabaseClient.deletePacketPhotos (_available : Bool)
    (_listQ : Except String (Option (List String))) (_removeQ : Except String Unit) : Unit :=
  ()

/-- `SupabaseClient.deletePacket(id)`: `false` when unavailable; runs the
photo cleanup (whose errors are swallowed inside `deletePacketPhotos`), then
deletes the `packets` row, returning `true` on success and `false` from the
`catch` when that delete errors. -/
def SupabaseClient.deletePacket (available : Bool)
    (cleanupList : Except String (Option (List String))) (cleanupRemove : Except String Unit)
    (delQ : Except String Unit) : Bool :=
  if available = false then false
  else
    let _ := SupabaseClient.deletePacketPhotos available cleanupList cleanupRemove
    match delQ with
    | .error _ => false
    | .ok _ => true

/-- A concrete `packets` row. -/
def packetRow0 : PacketRow :=
  ⟨"p-1", "Ann", "12 Elm St", "standing-seam", "{}", "{}"⟩

/-- C5 counterexample: with Supabase available, the `packets` query
succeeding and the secondary `packet_photos` query reporting an error,
`getPacket` does not return `null` — it returns the packet without the
`photos` field, so not every packet operation returns its neutral value when
a backend call reports an error. -/
theorem getPacket_nonnull_on_photos_error :
    SupabaseClient.getPacket true (.ok packetRow0) (.error "photos query failed") =
      some ⟨packetRow0, none⟩ ∧
    SupabaseClient.getPacket true (.ok packetRow0) (.error "photos query failed") ≠ none := by
  exact ⟨rfl, by decide⟩

/-- C5 as amended: every packet operation returns its neutral value
(`[]`/`null`/`false`) when Supabase is unavailable and when its primary query
errors, and never propagates an exception; errors of the secondary calls are
swallowed: a `packet_photos` query error makes `getPacket` return the packet
without its `photos` field, and `deletePacket` ignores the outcome of the
storage cleanup entirely. -/
theorem supabase_packet_ops_neutral_on_failure :
    ∀ (e : String) (q : Except String (Option (List PacketSummary)))
      (pq : Except String PacketRow) (phq : Except String (Option (List PhotoRow)))
      (row : PacketRow) (id : Option String) (pid : String)
      (uq iq : Except String PacketRow)
      (cl : Except String (Option (List String))) (cr : Except String Unit),
      SupabaseClient.listPackets false q = [] ∧
      SupabaseClient.listPackets true (.error e) = [] ∧
      SupabaseClient.listPackets true (.ok none) = [] ∧
      SupabaseClient.getPacket false pq phq = none ∧
      SupabaseClient.getPacket true (.error e) phq = none ∧
      SupabaseClient.getPacket true (.ok row) (.error e) = some ⟨row, none⟩ ∧
      SupabaseClient.savePacket false id uq iq = none ∧
      SupabaseClient.savePacket true (some pid) (.error e) iq = none ∧
      SupabaseClient.savePacket true none uq (.error e) = none ∧
      SupabaseClient.deletePacket false cl cr (.ok ()) = false ∧
      SupabaseClient.deletePacket true cl cr (.error e) = false ∧
      SupabaseClient.deletePacket true (.error e) (.error e) (.ok ()) = true := by
  intro e q pq phq row id pid uq iq cl cr
  refine ⟨rfl, rfl, rfl, rfl, rfl, rfl, rfl, rfl, rfl, rfl, ?_, rfl⟩
  simp [SupabaseClient.deletePacket]

/-- `SupabaseClient.checkPassword(password)`: the hardcoded comparison when
Supabase is unavailable; otherwise a `settings` lookup of `app_password`,
comparing its `value` on success and falling back to the hardcoded comparison
from the `catch` on error. -/
def SupabaseClient.checkPassword (available : Bool)
    (q : Except String (Option String)) (password : String) : Bool :=
  if available = false then decide (password = "lavaroofing")
  else
    match q with
    | .error _ => decide (password = "lavaroofing")
    | .ok (some v) => decide (v = password)
    | .ok none => false

/-- C9: whenever Supabase is unavailable or the `app_password` lookup errors,
`checkPassword p` is `true` exactly when `p` is the hardcoded string
`lavaroofing`. -/
theorem checkPassword_hardcoded_fallback (q : Except String (Option String)) (p : String) :
    (SupabaseClient.checkPassword false q p = true ↔ p = "lavaroofing") ∧
    (∀ e, q = .error e →
      (SupabaseClient.checkPassword true q p = true ↔ p = "lavaroofing")) := by
  constructor
  · simp [SupabaseClient.checkPassword]
  · intro e he
    subst he
    simp [SupabaseClient.checkPassword]

/-- Concrete instantiation of `checkPassword_hardcoded_fallback`. -/
theorem checkPassword_hardcoded_fallback_witness :
    SupabaseClient.checkPassword true (.error "no rows") "lavaroofing" = true :=
  ((checkPassword_hardcoded_fallback (.error "no rows") "lavaroofing").2 "no rows" rfl).mpr rfl

/-! ## Voice-command intent parser (`AIAssistant.parseLocalIntent`)

The parser lowercases the command and walks a fixed chain of substring tests:
navigation first, then capture, then the info/search branch (whose regex name
extraction is modelled as the `nameMatch` input, and the cached client list as
`cachedClients`), then the today's-schedule test, and `null` at the end. -/

/-- A cached client, as used by the info branch (`c.id`, `c.name`). -/
structure ClientRec where
  id : String
  name : String
deriving DecidableEq

/-- An intent object returned by the parser.  `ptype` is the `params.type` of
capture intents, `confidence` is in hundredths. -/
structure Intent where
  action : String
  target : String
  ptype : Option String := none
  query : Option String := none
  clientId : Option String := none
  confidence : Nat
deriving DecidableEq

/-- `AIAssistant.parseLocalIntent(command)`.  `nameMatch` is the result of the
name-extraction regex match (capture group 1, `null` = no match) on the
lowercased command. -/
def AIAssistant.parseLocalIntent (nameMatch : String → Option String)
    (cachedClients : List ClientRec) (command : String) : Option Intent :=
  let cmd := jsToLower command
  if jsIncludes cmd "calendar" || jsIncludes cmd "schedule" then
    some { action := "navigate", target := "calendar", confidence := 90 }
  else if jsIncludes cmd "dashboard" || jsIncludes cmd "home" then
    some { action := "navigate", target := "dashboard", confidence := 90 }
  else if jsIncludes cmd "packet" && (jsIncludes cmd "show" || jsIncludes cmd "go" || jsIncludes cmd "open") then
    some { action := "navigate", target := "packets", confidence := 90 }
  else if jsIncludes cmd "client" && (jsIncludes cmd "show" || jsIncludes cmd "list" || jsIncludes cmd "all") then
    some { action := "navigate", target := "clients", confidence := 90 }
  else if jsIncludes cmd "job" && (jsIncludes cmd "show" || jsIncludes cmd "list") then
    some { action := "navigate", target := "jobs", confidence := 90 }
  else if jsIncludes cmd "photo" || jsIncludes cmd "picture" then
    some { action := "capture", target := "media", ptype := some "photo", confidence := 95 }
  else if jsIncludes cmd "video" || jsIncludes cmd "record video" then
    some { action := "capture", target := "media", ptype := some "video", confidence := 95 }
  else if jsIncludes cmd "voice" || jsIncludes cmd "voice note" || jsIncludes cmd "memo" then
    some { action := "capture", target := "media", ptype := some "voice", confidence := 95 }
  else
    let infoStep : Option Intent :=
      if jsIncludes cmd "info" || jsIncludes cmd "find" || jsIncludes cmd "look up" || jsIncludes cmd "show me" then
        match nameMatch cmd with
        | some query =>
          match cachedClients.find? (fun c => jsIncludes (jsToLower c.name) (jsToLower query)) with
          | some c => some { action := "info", target := "client", query := some query,
                             clientId := some c.id, confidence := 85 }
          | none => some { action := "search", target := "client", query := some query, confidence := 70 }
        | none => none
      else none
    match infoStep with
    | some i => some i
    | none =>
      if jsIncludes cmd "today" && (jsIncludes cmd "schedule" || jsIncludes cmd "jobs") then
        some { action := "schedule", target := "job", query := some "today", confidence := 90 }
      else
        none

/-- Every keyword the parser's guards test for. -/
def parseKeywords : List String :=
  ["calendar", "schedule", "dashboard", "home", "packet", "client", "job",
   "photo", "picture", "video", "record video", "voice", "voice note", "memo",
   "info", "find", "look up", "show me", "today"]

/-- C4: the parser decides by substring tests on the lowercased command; any
command containing `calendar` or `schedule` (in any case) yields the
navigate-calendar intent, even in the presence of capture words; a command
with a capture word but no navigation keyword yields the capture intent even
in the presence of info words (capture is tested after navigation and before
info/search); and a command containing none of the keywords yields `null`. -/
theorem parseLocalIntent_linear_matching (nm : String → Option String)
    (cc : List ClientRec) (cmd : String) :
    ((jsIncludes (jsToLower cmd) "calendar" = true ∨ jsIncludes (jsToLower cmd) "schedule" = true) →
      AIAssistant.parseLocalIntent nm cc cmd =
        some { action := "navigate", target := "calendar", confidence := 90 }) ∧
    ((∀ k ∈ ["calendar", "schedule", "dashboard", "home", "packet", "client", "job"],
        jsIncludes (jsToLower cmd) k = false) →
      jsIncludes (jsToLower cmd) "photo" = true →
      AIAssistant.parseLocalIntent nm cc cmd =
        some { action := "capture", target := "media", ptype := some "photo", confidence := 95 }) ∧
    ((∀ k ∈ parseKeywords, jsIncludes (jsToLower cmd) k = false) →
      AIAssistant.parseLocalIntent nm cc cmd = none) := by
  refine ⟨fun h => ?_, fun h hp => ?_, fun h => ?_⟩
  · rcases h with h | h <;> simp [AIAssistant.parseLocalIntent, h]
  · have h1 := h "calendar" (by simp)
    have h2 := h "schedule" (by simp)
    have h3 := h "dashboard" (by simp)
    have h4 := h "home" (by simp)
    have h5 := h "packet" (by simp)
    have h6 := h "client" (by simp)
    have h7 := h "job" (by simp)
    simp [AIAssistant.parseLocalIntent, h1, h2, h3, h4, h5, h6, h7, hp]
  · have h1 := h "calendar" (by simp [parseKeywords])
    have h2 := h "schedule" (by simp [parseKeywords])
    have h3 := h "dashboard" (by simp [parseKeywords])
    have h4 := h "home" (by simp [parseKeywords])
    have h5 := h "packet" (by simp [parseKeywords])
    have h6 := h "client" (by simp [parseKeywords])
    have h7 := h "job" (by simp [parseKeywords])
    have h8 := h "photo" (by simp [parseKeywords])
    have h9 := h "picture" (by simp [parseKeywords])
    have h10 := h "video" (by simp [parseKeywords])
    have h11 := h "voice" (by simp [parseKeywords])
    have h12 := h "memo" (by simp [parseKeywords])
    have h13 := h "info" (by simp [parseKeywords])
    have h14 := h "find" (by simp [parseKeywords])
    have h15 := h "look up" (by simp [parseKeywords])
    have h16 := h "show me" (by simp [parseKeywords])
    have h17 := h "today" (by simp [parseKeywords])
    have h18 := h "record video" (by simp [parseKeywords])
    have h19 := h "voice note" (by simp [parseKeywords])
    simp [AIAssistant.parseLocalIntent, h1, h2, h3, h4, h5, h6, h7, h8, h9, h10,
      h11, h12, h13, h14, h15, h16, h17, h18, h19]

/-- Concrete instantiation of `parseLocalIntent_linear_matching`: a command
containing both `CALENDAR` (upper case) and the capture word `photo` still
parses to the navigate-calendar intent. -/
theorem parseLocalIntent_linear_matching_witness :
    AIAssistant.parseLocalIntent (fun _ => none) [] "Add a photo to the CALENDAR" =
      some { action := "navigate", target := "calendar", confidence := 90 } :=
  (parseLocalIntent_linear_matching (fun _ => none) [] "Add a photo to the CALENDAR").1
    (Or.inl (by decide))

/-! ## The `jobs` table (`src/supabase-platform-schema.sql`)

`CREATE TABLE jobs` declares `id UUID PRIMARY KEY` (hence NOT NULL) and
fifteen further columns, none of them NOT NULL; in particular the foreign
keys `packet_id` and `client_id` are both nullable, with
`ON DELETE SET NULL`. -/

/-- A SQL column: its name and whether it is NOT NULL (PRIMARY KEY counts as
NOT NULL). -/
structure Column where
  name : String
  notNull : Bool
deriving DecidableEq

/-- The columns of the `jobs` table, with their nullability as declared. -/
def jobsColumns : List Column :=
  [⟨"id", true⟩, ⟨"packet_id", false⟩, ⟨"client_id", false⟩, ⟨"title", false⟩,
   ⟨"status", false⟩, ⟨"scheduled_date", false⟩, ⟨"scheduled_time", false⟩,
   ⟨"estimated_days", false⟩, ⟨"actual_start_date", false⟩,
   ⟨"actual_end_date", false⟩, ⟨"assigned_crew", false⟩,
   ⟨"estimated_amount", false⟩, ⟨"notes", false⟩, ⟨"address", false⟩,
   ⟨"created_at", false⟩, ⟨"updated_at", false⟩]

/-- A stored row: a (possibly SQL NULL) value for each column name; values
are carried as opaque strings. -/
abbrev SqlRow := List (String × Option String)

/-- The value a row gives a column (`none` = the row has no such column). -/
def rowValue (row : SqlRow) (c : String) : Option (Option String) :=
  (row.find? (fun p => decide (p.1 = c))).map (fun p => p.2)

/-- A row the table can store: it assigns every column of the schema a value,
non-NULL wherever the column is declared NOT NULL. -/
def rowValidFor (cols : List Column) (row : SqlRow) : Bool :=
  cols.all fun c =>
    match rowValue row c.name with
    | none => false
    | some v => !c.notNull || v.isSome

/-- The row has a non-NULL value for the column. -/
def columnPresent (row : SqlRow) (c : String) : Bool :=
  match rowValue row c with
  | some (some _) => true
  | _ => false

/-- A jobs row with both foreign keys NULL. -/
def jobsRowNoClient : SqlRow :=
  [("id", some "j-1"), ("packet_id", none), ("client_id", none), ("title", some "Repair"),
   ("status", some "pending"), ("scheduled_date", none), ("scheduled_time", none),
   ("estimated_days", some "1"), ("actual_start_date", none), ("actual_end_date", none),
   ("assigned_crew", some "{}"), ("estimated_amount", none), ("notes", none),
   ("address", none), ("created_at", some "t0"), ("updated_at", some "t0")]

/-- C6 counterexample: a jobs row whose `client_id` is NULL satisfies every
constraint the `jobs` schema declares, so the client reference is not present
in every storable jobs row. -/
theorem jobs_row_without_client_is_valid :
    rowValidFor jobsColumns jobsRowNoClient = true ∧
    columnPresent jobsRowNoClient "client_id" = false := by
  decide

/-- C6 as amended: every storable jobs row carries a non-NULL primary-key
`id`, while both the client reference and the packet reference are optional:
a row with `client_id` and `packet_id` NULL is storable. -/
theorem jobs_client_and_packet_optional (row : SqlRow) :
    (rowValidFor jobsColumns row = true → columnPresent row "id" = true) ∧
    (rowValidFor jobsColumns jobsRowNoClient = true ∧
     columnPresent jobsRowNoClient "packet_id" = false ∧
     columnPresent jobsRowNoClient "client_id" = false) := by
  refine ⟨fun h => ?_, by decide⟩
  have h1 := List.all_eq_true.mp h ⟨"id", true⟩ (by decide)
  unfold columnPresent
  cases hv : rowValue row "id" with
  | none => rw [hv] at h1; simp at h1
  | some v =>
    cases v with
    | none => rw [hv] at h1; simp at h1
    | some s => rfl

/-- Concrete instantiation of `jobs_client_and_packet_optional`. -/
theorem jobs_client_and_packet_optional_witness :
    columnPresent jobsRowNoClient "id" = true :=
  (jobs_client_and_packet_optional jobsRowNoClient).1 (by decide)

/-! ## `getPacket` against a database state (claim C7)

To relate `getPacket` to the stored tables, the two queries it runs are given
the semantics of a relational state: the `packets` single-row select filters
the `packets` table by id (PostgREST `.single()` errors unless exactly one row
matches), and the `packet_photos` select returns every row whose `packet_id`
matches. -/

/-- State of the two packet tables. -/
structure PacketDB where
  packets : List PacketRow
  packet_photos : List PhotoRow

/-- PostgREST `.single()`: exactly one row, or an error. -/
def selectSingle {α : Type} : List α → Except String α
  | [r] => .ok r
  | [] => .error "no rows returned"
  | _ :: _ :: _ => .error "multiple rows returned"

/-- `SupabaseClient.getPacket(id)` with its queries evaluated against the
database state. -/
def SupabaseClient.getPacketFromDB (db : PacketDB) (id : String) : Option PacketWithPhotos :=
  SupabaseClient.getPacket true
    (selectSingle (db.packets.filter fun p => decide (p.id = id)))
    (.ok (some (db.packet_photos.filter fun r => decide (r.packet_id = id))))

/-- No element occurs twice. -/
def allDistinct {α : Type} [DecidableEq α] : List α → Bool
  | [] => true
  | x :: xs => !(decide (x ∈ xs)) && allDistinct xs

/-- The schema constraints on the two tables: `packets.id` is the primary key,
and `packet_photos` has `UNIQUE(packet_id, slot_id)` — at most one row per
`(packet_id, slot_id)` pair. -/
def PacketDB.wellFormed (db : PacketDB) : Bool :=
  allDistinct (db.packets.map fun p => p.id) &&
  allDistinct (db.packet_photos.map fun r => (r.packet_id, r.slot_id))

/-- Filtering a list by a key that occurs exactly once yields exactly the one
element carrying it. -/
theorem filter_eq_of_key_distinct {α β : Type} [DecidableEq β] (f : α → β) :
    ∀ (l : List α) (p : α) (k : β), allDistinct (l.map f) = true → p ∈ l → f p = k →
      l.filter (fun x => decide (f x = k)) = [p] := by
  intro l
  induction l with
  | nil => intro p k _ hp; cases hp
  | cons a t ih =>
    intro p k hd hp hk
    rw [List.map_cons] at hd
    simp only [allDistinct, Bool.and_eq_true, Bool.not_eq_true', decide_eq_false_iff_not] at hd
    obtain ⟨hna, hdt⟩ := hd
    rcases List.mem_cons.mp hp with rfl | hpt
    · rw [List.filter_cons_of_pos (by simpa using hk)]
      have ht : t.filter (fun x => decide (f x = k)) = [] := by
        rw [List.filter_eq_nil_iff]
        intro x hx hfx
        exact hna (hk ▸ (of_decide_eq_true hfx) ▸ List.mem_map_of_mem f hx)
      rw [ht]
    · have hak : ¬(f a = k) := by
        intro hak
        exact hna (hak.trans hk.symm ▸ List.mem_map_of_mem f hpt)
      rw [List.filter_cons_of_neg (by simpa using hak)]
      exact ih p k hdt hpt hk

/-- Under the `UNIQUE(packet_id, slot_id)` constraint, the rows of one packet
have pairwise distinct slot ids. -/
theorem filtered_slots_distinct (id : String) :
    ∀ l : List PhotoRow,
      allDistinct (l.map fun r => (r.packet_id, r.slot_id)) = true →
      allDistinct ((l.filter fun r => decide (r.packet_id = id)).map fun r => r.slot_id) = true := by
  intro l
  induction l with
  | nil => intro _; rfl
  | cons a t ih =>
    intro hd
    rw [List.map_cons] at hd
    simp only [allDistinct, Bool.and_eq_true, Bool.not_eq_true', decide_eq_false_iff_not] at hd
    obtain ⟨hna, hdt⟩ := hd
    by_cases hpa : a.packet_id = id
    · rw [List.filter_cons_of_pos (by simpa using hpa), List.map_cons]
      simp only [allDistinct, Bool.and_eq_true, Bool.not_eq_true', decide_eq_false_iff_not]
      refine ⟨fun hmem => ?_, ih hdt⟩
      obtain ⟨r, hr, hs⟩ := List.mem_map.mp hmem
      have hrt : r ∈ t := (List.mem_filter.mp hr).1
      have hrid : r.packet_id = id := of_decide_eq_true (List.mem_filter.mp hr).2
      refine hna (List.mem_map.mpr ⟨r, hrt, ?_⟩)
      rw [hrid, hpa, hs]
    · rw [List.filter_cons_of_neg (by simpa using hpa)]
      exact ih hdt

/-- C7: under the schema constraints, for every packet id present in the
`packets` table, `getPacket` returns that packet with all `packet_photos`
rows of that id attached as its `photos` field, and those attached rows have
at most one row per slot. -/
theorem getPacket_attaches_all_photos (db : PacketDB) (p : PacketRow) (id : String)
    (hwf : db.wellFormed = true) (hp : p ∈ db.packets) (hid : p.id = id) :
    SupabaseClient.getPacketFromDB db id =
      some ⟨p, some (db.packet_photos.filter fun r => decide (r.packet_id = id))⟩ ∧
    allDistinct ((db.packet_photos.filter fun r => decide (r.packet_id = id)).map
      fun r => r.slot_id) = true := by
  unfold PacketDB.wellFormed at hwf
  rw [Bool.and_eq_true] at hwf
  obtain ⟨h1, h2⟩ := hwf
  constructor
  · unfold SupabaseClient.getPacketFromDB
    rw [filter_eq_of_key_distinct (fun p => p.id) db.packets p id h1 hp hid]
    rfl
  · exact filtered_slots_distinct id db.packet_photos h2

/-- A concrete database state: one packet, two photo rows in distinct slots. -/
def packetPhotosDB0 : PacketDB :=
  { packets := [packetRow0]
    packet_photos :=
      [⟨"ph-1", "p-1", "front", "packets/p-1/front.jpg", "{}", "1"⟩,
       ⟨"ph-2", "p-1", "back", "packets/p-1/back.jpg", "{}", "1"⟩] }

/-- Concrete instantiation of `getPacket_attaches_all_photos`. -/
theorem getPacket_attaches_all_photos_witness :
    SupabaseClient.getPacketFromDB packetPhotosDB0 "p-1" =
      some ⟨packetRow0, some (packetPhotosDB0.packet_photos.filter
        fun r => decide (r.packet_id = "p-1"))⟩ :=
  (getPacket_attaches_all_photos packetPhotosDB0 packetRow0 "p-1"
    (by decide) (by decide) (by decide)).1

/-! ## Quick Capture (`src/js/modules/quick-capture.js`)

`QuickCapture.save()` aborts (alert, no write) when the batch is empty or no
client is tagged; otherwise it builds one media entry per batch item — each
carrying the selected client's id, name and address — optionally uploads each
to storage (transcription and upload are modelled as per-item oracles, since
their outcomes never affect the client tagging or the local store shape),
then prepends all entries to the `lavaQuickMedia` localStorage array and
truncates it to 100 entries (`unshift` + `slice(0, 100)`). -/

/-- The selected client's data (`selectedClientData`). -/
structure ClientInfo where
  name : String
  address : String
deriving DecidableEq

/-- One item of the capture batch. -/
structure BatchItem where
  itemType : String
  transcript : Option String
deriving DecidableEq

/-- A media entry as built by `QuickCapture.save` (the JS `type` field is
`entryType` here; `blob` is the base64 local backup). -/
structure MediaEntry where
  id : String
  entryType : String
  client_id : Option String
  client_name : String
  client_address : String
  note : String
  transcript : Option String
  created_at : String
  blob : Option String
  url : Option String
  storage_path : Option String
deriving DecidableEq

/-- Per-call inputs of `QuickCapture.save`: `Date.now()`, the ISO timestamp,
the note field, and per-item oracles for the transcription result, the
storage upload (public URL and storage path when the upload succeeded) and
the base64 conversion of the blob. -/
structure QCEnv where
  now : Nat
  createdAt : String
  note : String
  transcribed : Nat → Option String
  upload : Nat → Option (String × String)
  blobB64 : Nat → Option String

/-- The module state `save` reads: the batch, the selected client id (null
for a local-only client) and data, and the current `lavaQuickMedia` array. -/
structure QCState where
  batchItems : List BatchItem
  selectedClientId : Option String
  selectedClientData : Option ClientInfo
  localMedia : List MediaEntry

/-- The media entry built for the `savedCount`-th batch item (1-based):
`{ id: 'media_' + Date.now() + '_' + savedCount, type, client_id,
client_name, client_address, note, transcript, created_at, ... }`, with
`url`/`storage_path` set when the storage upload succeeded and the base64
`blob` backup kept only when it did not. -/
def QuickCapture.mediaEntryFor (env : QCEnv) (st : QCState) (cd : ClientInfo)
    (savedCount : Nat) (item : BatchItem) : MediaEntry :=
  let transcript :=
    match item.transcript with
    | some t => some t
    | none => if item.itemType = "voice" then env.transcribed savedCount else none
  let up := env.upload savedCount
  { id := "media_" ++ toString env.now ++ "_" ++ toString savedCount
    entryType := item.itemType
    client_id := st.selectedClientId
    client_name := cd.name
    client_address := cd.address
    note := env.note
    transcript := transcript
    created_at := env.createdAt
    blob := match up with | some _ => none | none => env.blobB64 savedCount
    url := up.map fun u => u.1
    storage_path := up.map fun u => u.2 }

/-- `QuickCapture.save()`: `none` on the two abort paths; otherwise the list
of saved entries together with the new `lavaQuickMedia` store
`(savedEntries ++ old).take 100`. -/
def QuickCapture.save (env : QCEnv) (st : QCState) :
    Option (List MediaEntry × List MediaEntry) :=
  if st.batchItems.isEmpty then none
  else
    match st.selectedClientData with
    | none => none
    | some cd =>
      let saved := st.batchItems.enum.map
        fun pr => QuickCapture.mediaEntryFor env st cd (pr.1 + 1) pr.2
      some (saved, (saved ++ st.localMedia).take 100)

/-- C8: `QuickCapture.save` aborts without saving when the batch is empty or
no client is selected, and when it proceeds every saved entry carries the
selected client's id, name and address. -/
theorem quickcapture_save_tags_client (env : QCEnv) (st : QCState) :
    (st.batchItems = [] → QuickCapture.save env st = none) ∧
    (st.selectedClientData = none → QuickCapture.save env st = none) ∧
    (∀ cd saved newStore, st.selectedClientData = some cd →
      QuickCapture.save env st = some (saved, newStore) →
      ∀ e ∈ saved, e.client_id = st.selectedClientId ∧
        e.client_name = cd.name ∧ e.client_address = cd.address) := by
  refine ⟨fun h => ?_, fun h => ?_, fun cd saved newStore hcd hsave e he => ?_⟩
  · simp [QuickCapture.save, h]
  · unfold QuickCapture.save
    rw [h]
    cases st.batchItems.isEmpty <;> rfl
  · unfold QuickCapture.save at hsave
    rw [hcd] at hsave
    split at hsave
    · exact absurd hsave (by simp)
    · have hs : saved = st.batchItems.enum.map
          (fun pr => QuickCapture.mediaEntryFor env st cd (pr.1 + 1) pr.2) := by
        injection hsave with h
        exact (congrArg Prod.fst h).symm
      subst hs
      obtain ⟨pr, hpr, rfl⟩ := List.mem_map.mp he
      exact ⟨rfl, rfl, rfl⟩

/-- A concrete run of `QuickCapture.save`: one photo in the batch, client
tagged, nothing uploaded. -/
def qcEnv0 : QCEnv :=
  { now := 5, createdAt := "t0", note := "", transcribed := fun _ => none,
    upload := fun _ => none, blobB64 := fun _ => none }

/-- Module state for the concrete run. -/
def qcState0 : QCState :=
  { batchItems := [⟨"photo", none⟩], selectedClientId := some "c-9",
    selectedClientData := some ⟨"Ann", "12 Elm St"⟩, localMedia := [] }

/-- The single entry the concrete run saves. -/
def mediaEntry0 : MediaEntry :=
  QuickCapture.mediaEntryFor qcEnv0 qcState0 ⟨"Ann", "12 Elm St"⟩ 1 ⟨"photo", none⟩

/-- Concrete instantiation of `quickcapture_save_tags_client`. -/
theorem quickcapture_save_tags_client_witness :
    mediaEntry0.client_id = some "c-9" ∧ mediaEntry0.client_name = "Ann" ∧
    mediaEntry0.client_address = "12 Elm St" :=
  (quickcapture_save_tags_client qcEnv0 qcState0).2.2 ⟨"Ann", "12 Elm St"⟩
    [mediaEntry0] [mediaEntry0] rfl rfl mediaEntry0 (by simp)

/-- C10: after every completed `QuickCapture.save`, the `lavaQuickMedia`
store is the first 100 entries of the saved entries prepended to the previous
store: it holds at most 100 entries, the new entries come before every
previously stored one, and only the oldest tail of the previous store is
discarded. -/
theorem quickcapture_local_store_capped (env : QCEnv) (st : QCState)
    (saved newStore : List MediaEntry)
    (h : QuickCapture.save env st = some (saved, newStore)) :
    newStore.length ≤ 100 ∧
    newStore = (saved ++ st.localMedia).take 100 ∧
    (saved.length ≤ 100 → newStore = saved ++ st.localMedia.take (100 - saved.length)) := by
  have hstore : newStore = (saved ++ st.localMedia).take 100 := by
    unfold QuickCapture.save at h
    split at h
    · exact absurd h (by simp)
    · split at h
      · exact absurd h (by simp)
      · injection h with h2
        have h3 := congrArg Prod.fst h2
        have h4 := congrArg Prod.snd h2
        simp only at h3 h4
        rw [← h4, h3]
  refine ⟨?_, hstore, fun hlen => ?_⟩
  · rw [hstore, List.length_take]
    exact min_le_left _ _
  · rw [hstore, List.take_append_eq_append_take, List.take_of_length_le hlen]

/-- Concrete instantiation of `quickcapture_local_store_capped`. -/
theorem quickcapture_local_store_capped_witness :
    ([mediaEntry0] : List MediaEntry).length ≤ 100 :=
  (quickcapture_local_store_capped qcEnv0 qcState0 [mediaEntry0] [mediaEntry0] rfl).1
